import Mathlib

/-!
# Stack output extraction (`pkg/cmd/pulumi/stack_output.go`)

A shallow embedding of the `pulumi stack output` command: `getStackOutputs` and
`stackOutputCmd.Run` are translated from the Go source.  The functions they call that
live in other packages (`stack.GetRootStackResource`, `display.MassageSecrets`,
`stack.SerializeProperties`, `requireStack`, `printJSON`, ...) are collaborators: the
translated code takes them as parameters, and a second set of definitions models them
from the specification.
-/

namespace StackOutput

/-! ## Go-level plumbing -/

/-- Result of a Go call that either returns normally, returns a non-nil `error`
(carried as its message), or aborts with a panic. -/
inductive Outcome (α : Type) where
  | ok (a : α)
  | error (msg : String)
  | panic (msg : String)

/-- Holds exactly when the call returned normally. -/
def Outcome.isOk {α : Type} : Outcome α → Bool
  | .ok _ => true
  | _ => false

/-- A `float64`, carried as its IEEE-754 bit pattern; nothing here does arithmetic on it. -/
structure Float64 where
  bits : Nat
  deriving DecidableEq, Repr

/-! ## Data model -/

/-- Descriptive metadata and content of an asset or archive. -/
structure BlobRef where
  path : String
  hash : String
  content : String
  deriving DecidableEq, Repr

/-- One node of a stack property tree (`resource.PropertyValue`).  The spec's
`Computed` is `output none false false`. -/
inductive PropertyValue where
  | null
  | bool (b : Bool)
  | number (n : Float64)
  | string (s : String)
  | array (elems : List PropertyValue)
  | object (fields : List (String × PropertyValue))
  | secret (inner : PropertyValue)
  | output (value : Option PropertyValue) (known : Bool) (secret : Bool)
  | asset (a : BlobRef)
  | archive (a : BlobRef)
  | resourceReference (id : String)

/-- Go `resource.PropertyMap`: output name to property value, as an association list. -/
abbrev PropertyMap := List (String × PropertyValue)

/-- A JSON-compatible plain value (Go `interface{}` after serialization). -/
inductive PlainValue where
  | null
  | bool (b : Bool)
  | number (n : Float64)
  | string (s : String)
  | array (elems : List PlainValue)
  | object (fields : List (String × PlainValue))

/-- Go `map[string]interface{}` (non-nil), as an association list. -/
abbrev PlainMap := List (String × PlainValue)

/-- State of one resource in a snapshot (`resource.State`); only the fields used here. -/
structure State where
  typ : String
  Outputs : PropertyMap

/-- Deployment snapshot (`deploy.Snapshot`); only the resource list is used here. -/
structure Snapshot where
  Resources : List State

/-- Handle of a loaded stack (`backend.Stack`), identified by its reference. -/
structure Stack where
  ref : String
  deriving DecidableEq, Repr

/-- Modelled from the spec: the crypter of `sdk/v3/go/common/resource/config` is
absent from the sources; the spec describes it as the component that decrypts recorded
secret material.  A `Secret` node of the value model carries the wrapped value itself,
so decryption is modelled on that wrapped value. -/
structure Crypter where
  DecryptValue : PropertyValue → Outcome PropertyValue

/-- A crypter is capable of decrypting when some decryption returns normally. -/
def Crypter.canDecrypt (c : Crypter) : Prop :=
  ∃ v p, c.DecryptValue v = .ok p

/-- Modelled from the spec: `config.NewPanicCrypter` is absent from the sources; the
spec describes it as a crypter that panics on actual decryption. -/
def NewPanicCrypter : Crypter :=
  ⟨fun _ => .panic "attempt to decrypt value"⟩

/-! ## `getStackOutputs` (stack_output.go, lines 114-129) -/

/-- The functions of `pkg/resource/stack` and `pkg/backend/display` that
`getStackOutputs` calls; they are not part of the translated file. -/
structure StackLib where
  GetRootStackResource : Snapshot → Outcome (Option State)
  MassageSecrets : PropertyMap → Bool → PropertyMap
  SerializeProperties : PropertyMap → Crypter → Bool → Outcome (Option PlainMap)

/-- Translation of `getStackOutputs`.  The Go result `(map, error)` is an `Outcome`
of a possibly nil map (`none`). -/
def getStackOutputs (lib : StackLib) (snap : Snapshot) (showSecrets : Bool) :
    Outcome (Option PlainMap) :=
  match lib.GetRootStackResource snap with
  | .error e => .error e
  | .panic p => .panic p
  | .ok none => .ok (some [])
  | .ok (some state) =>
    lib.SerializeProperties (lib.MassageSecrets state.Outputs showSecrets)
      NewPanicCrypter showSecrets

/-! ## `stackOutputCmd.Run` (stack_output.go, lines 55-112) -/

/-- Receiver of `Run`: the command flags. -/
structure stackOutputCmd where
  stackName : String
  showSecrets : Bool
  jsonOut : Bool

/-- The record handed to `log3rdPartySecretsProviderDecryptionEvent`. -/
structure AuditEvent where
  stack : Stack
  secretName : String
  commandName : String
  deriving DecidableEq, Repr

/-- Collaborators of `Run` outside the translated file.  `printJSON` yields the text
it wrote to standard output and its result; the text printers yield the text they
wrote. -/
structure CmdEnv where
  lib : StackLib
  requireStack : String → Outcome Stack
  Snapshot : Stack → Outcome Snapshot
  printJSON : PlainValue → String × Outcome Unit
  stringifyOutput : PlainValue → String
  printStackOutputs : PlainMap → String

/-- Observable behaviour of one invocation of `Run`. -/
structure RunResult where
  stdout : String
  audit : List AuditEvent
  result : Outcome Unit

/-- Lines 84-105 of `Run`: print one property or all of them. -/
def present (env : CmdEnv) (cmd : stackOutputCmd) (outputs : PlainMap)
    (args : List String) : String × Outcome Unit :=
  match args with
  | name :: _ =>
    match outputs.lookup name with
    | some v =>
      if cmd.jsonOut then
        env.printJSON v
      else
        (env.stringifyOutput v ++ "\n", .ok ())
    | none =>
      ("", .error ("current stack does not have output property \x27" ++ name ++ "\x27"))
  | [] =>
    if cmd.jsonOut then
      env.printJSON (.object outputs)
    else
      (env.printStackOutputs outputs, .ok ())

/-- Translation of `(*stackOutputCmd).Run`. -/
def stackOutputCmd.Run (env : CmdEnv) (cmd : stackOutputCmd) (args : List String) :
    RunResult :=
  match env.requireStack cmd.stackName with
  | .error e => ⟨"", [], .error e⟩
  | .panic p => ⟨"", [], .panic p⟩
  | .ok s =>
    match env.Snapshot s with
    | .error e => ⟨"", [], .error e⟩
    | .panic p => ⟨"", [], .panic p⟩
    | .ok snap =>
      match getStackOutputs env.lib snap cmd.showSecrets with
      | .error e => ⟨"", [], .error ("getting outputs: " ++ e)⟩
      | .panic p => ⟨"", [], .panic p⟩
      | .ok outputs =>
        let outputs := outputs.getD []
        match present env cmd outputs args with
        | (w, .ok _) =>
          ⟨w, if cmd.showSecrets then [⟨s, "", "pulumi stack output"⟩] else [], .ok ()⟩
        | (w, r) => ⟨w, [], r⟩

/-! ## Collaborators modelled from the specification -/

/-- The marker that replaces a hidden secret. -/
def secretSentinel : PropertyValue := .string "[secret]"

mutual
/-- Modelled from the spec: `display.MassageSecrets` is absent from the sources; this
is the per-value redaction filter `redact(value, reveal)` of section 4.2.  A `Secret`
node becomes the sentinel when hiding and its redacted inner value when revealing; the
secret flag of an `Output` is applied in the same way; arrays, objects and the value
of an `Output` are traversed. -/
def redact (reveal : Bool) : PropertyValue → PropertyValue
  | .array xs => .array (redactList reveal xs)
  | .object fs => .object (redactFields reveal fs)
  | .secret inner => if reveal then redact reveal inner else secretSentinel
  | .output v known sec =>
    if sec && !reveal then secretSentinel else .output (redactOpt reveal v) known false
  | v => v
/-- Element-wise `redact` over an array. -/
def redactList (reveal : Bool) : List PropertyValue → List PropertyValue
  | [] => []
  | x :: xs => redact reveal x :: redactList reveal xs
/-- Value-wise `redact` over the fields of an object, keys kept. -/
def redactFields (reveal : Bool) : List (String × PropertyValue) → List (String × PropertyValue)
  | [] => []
  | (k, v) :: fs => (k, redact reveal v) :: redactFields reveal fs
/-- Redaction of the optional value of an `Output`. -/
def redactOpt (reveal : Bool) : Option PropertyValue → Option PropertyValue
  | none => none
  | some v => some (redact reveal v)
end

/-- Modelled from the spec: `display.MassageSecrets` is absent from the sources; it
applies `redact` to every output of the bag. -/
def MassageSecrets (outputs : PropertyMap) (showSecrets : Bool) : PropertyMap :=
  redactFields showSecrets outputs

/-- Modelled from the spec: the marker for a value that is not yet known; the spec
fixes no literal for it. -/
def unknownMarker : PlainValue := .string "<unknown>"

/-- Plain object describing an asset or archive: kind, path and hash, never the content. -/
def describeBlob (kind : String) (a : BlobRef) : PlainValue :=
  .object [("kind", .string kind), ("path", .string a.path), ("hash", .string a.hash)]

/-- Sequencing of two serialization steps: the first failure wins. -/
def Outcome.andThen {α β : Type} (r : Outcome α) (f : α → Outcome β) : Outcome β :=
  match r with
  | .ok a => f a
  | .error e => .error e
  | .panic p => .panic p

mutual
/-- Modelled from the spec: `stack.SerializeProperties` is absent from the sources;
this is the per-value serializer `toPlain` of section 4.3.  A `Secret` node reaching it
is handed to the crypter and the operation fails: with the panic of a panicking
crypter, otherwise with an invariant-violation error. -/
def toPlain (c : Crypter) : PropertyValue → Outcome PlainValue
  | .null => .ok .null
  | .bool b => .ok (.bool b)
  | .number n => .ok (.number n)
  | .string s => .ok (.string s)
  | .array xs => (toPlainList c xs).andThen fun ys => .ok (.array ys)
  | .object fs => (toPlainFields c fs).andThen fun gs => .ok (.object gs)
  | .secret inner =>
    match c.DecryptValue inner with
    | .panic p => .panic p
    | .error e => .error e
    | .ok _ => .error "secret value reached serialization"
  | .output v known _ => if known then toPlainOpt c v else .ok unknownMarker
  | .asset a => .ok (describeBlob "asset" a)
  | .archive a => .ok (describeBlob "archive" a)
  | .resourceReference id => .ok (.string id)
/-- Element-wise `toPlain` over an array, order kept. -/
def toPlainList (c : Crypter) : List PropertyValue → Outcome (List PlainValue)
  | [] => .ok []
  | x :: xs =>
    (toPlain c x).andThen fun y => (toPlainList c xs).andThen fun ys => .ok (y :: ys)
/-- Value-wise `toPlain` over the fields of an object, keys kept verbatim. -/
def toPlainFields (c : Crypter) : List (String × PropertyValue) → Outcome PlainMap
  | [] => .ok []
  | (k, v) :: fs =>
    (toPlain c v).andThen fun y => (toPlainFields c fs).andThen fun gs => .ok ((k, y) :: gs)
/-- Serialization of the value of a known `Output`; an absent value is null. -/
def toPlainOpt (c : Crypter) : Option PropertyValue → Outcome PlainValue
  | none => .ok .null
  | some v => toPlain c v
end

/-- Modelled from the spec: `stack.SerializeProperties` is absent from the sources; it
applies `toPlain` to every value of the bag and returns a non-nil map. -/
def SerializeProperties (props : PropertyMap) (c : Crypter) (_showSecrets : Bool) :
    Outcome (Option PlainMap) :=
  (toPlainFields c props).andThen fun m => .ok (some m)

/-- Modelled from the spec: the type marker of the root stack resource; the sources
and the spec do not give the literal. -/
def RootStackType : String := "pulumi:pulumi:Stack"

/-- Modelled from the spec: `stack.GetRootStackResource` is absent from the sources; it
locates the resource carrying the root marker in the resource list, nil when there is
none. -/
def GetRootStackResource (snap : Snapshot) : Outcome (Option State) :=
  .ok (snap.Resources.find? fun r => r.typ == RootStackType)

/-- The collaborators as the specification describes them. -/
def specLib : StackLib :=
  ⟨GetRootStackResource, MassageSecrets, SerializeProperties⟩

/-- A snapshot whose only resource is the root stack resource with the given outputs. -/
def rootSnapshot (outputs : PropertyMap) : Snapshot :=
  ⟨[⟨RootStackType, outputs⟩]⟩

/-! ## Predicates and transformations used to state the properties -/

mutual
/-- No `Secret` node and no secret-flagged `Output` anywhere in the tree. -/
def secretFree : PropertyValue → Bool
  | .array xs => secretFreeList xs
  | .object fs => secretFreeFields fs
  | .secret _ => false
  | .output v _ sec => !sec && secretFreeOpt v
  | _ => true
/-- Every element of an array is `secretFree`. -/
def secretFreeList : List PropertyValue → Bool
  | [] => true
  | x :: xs => secretFree x && secretFreeList xs
/-- Every field value of an object is `secretFree`. -/
def secretFreeFields : List (String × PropertyValue) → Bool
  | [] => true
  | (_, v) :: fs => secretFree v && secretFreeFields fs
/-- The optional value of an `Output` is `secretFree`. -/
def secretFreeOpt : Option PropertyValue → Bool
  | none => true
  | some v => secretFree v
end

mutual
/-- The tree with every `Secret` wrapper stripped and the inner values left intact
(the right-hand side of the reveal-correctness property, written from its wording).
Nothing but the wrappers is touched: the flags of an `Output` stay as they are. -/
def stripSecrets : PropertyValue → PropertyValue
  | .array xs => .array (stripSecretsList xs)
  | .object fs => .object (stripSecretsFields fs)
  | .secret inner => stripSecrets inner
  | .output v known sec => .output (stripSecretsOpt v) known sec
  | v => v
/-- Element-wise `stripSecrets`. -/
def stripSecretsList : List PropertyValue → List PropertyValue
  | [] => []
  | x :: xs => stripSecrets x :: stripSecretsList xs
/-- Value-wise `stripSecrets` over fields. -/
def stripSecretsFields : List (String × PropertyValue) → List (String × PropertyValue)
  | [] => []
  | (k, v) :: fs => (k, stripSecrets v) :: stripSecretsFields fs
/-- Lifting of `stripSecrets` to the optional value of an `Output`. -/
def stripSecretsOpt : Option PropertyValue → Option PropertyValue
  | none => none
  | some v => some (stripSecrets v)
end

mutual
/-- Two trees are identical except for the values wrapped inside `Secret` nodes: same
shape, same keys, same leaves, `Secret` wrappers at the same positions. -/
def sameOutsideSecrets : PropertyValue → PropertyValue → Bool
  | .null, .null => true
  | .bool a, .bool b => a == b
  | .number a, .number b => a == b
  | .string a, .string b => a == b
  | .array xs, .array ys => sameOutsideSecretsList xs ys
  | .object fs, .object gs => sameOutsideSecretsFields fs gs
  | .secret _, .secret _ => true
  | .output v k s, .output w l t => k == l && s == t && sameOutsideSecretsOpt v w
  | .asset a, .asset b => a == b
  | .archive a, .archive b => a == b
  | .resourceReference a, .resourceReference b => a == b
  | _, _ => false
/-- Pointwise `sameOutsideSecrets` on arrays of equal length. -/
def sameOutsideSecretsList : List PropertyValue → List PropertyValue → Bool
  | [], [] => true
  | x :: xs, y :: ys => sameOutsideSecrets x y && sameOutsideSecretsList xs ys
  | _, _ => false
/-- Pointwise `sameOutsideSecrets` on field lists with the same keys in the same order. -/
def sameOutsideSecretsFields :
    List (String × PropertyValue) → List (String × PropertyValue) → Bool
  | [], [] => true
  | (k, v) :: fs, (l, w) :: gs =>
    k == l && sameOutsideSecrets v w && sameOutsideSecretsFields fs gs
  | _, _ => false
/-- The relation `sameOutsideSecrets` on the optional value of an `Output`. -/
def sameOutsideSecretsOpt : Option PropertyValue → Option PropertyValue → Bool
  | none, none => true
  | some v, some w => sameOutsideSecrets v w
  | _, _ => false
end

mutual
/-- The tree with the content of every secret discarded: the value inside a `Secret`
node becomes `Null`, the value of a secret-flagged `Output` is dropped. -/
def eraseSecrets : PropertyValue → PropertyValue
  | .array xs => .array (eraseSecretsList xs)
  | .object fs => .object (eraseSecretsFields fs)
  | .secret _ => .secret .null
  | .output v known sec =>
    if sec then .output none known true else .output (eraseSecretsOpt v) known false
  | v => v
/-- Element-wise `eraseSecrets`. -/
def eraseSecretsList : List PropertyValue → List PropertyValue
  | [] => []
  | x :: xs => eraseSecrets x :: eraseSecretsList xs
/-- Value-wise `eraseSecrets` over fields. -/
def eraseSecretsFields : List (String × PropertyValue) → List (String × PropertyValue)
  | [] => []
  | (k, v) :: fs => (k, eraseSecrets v) :: eraseSecretsFields fs
/-- Lifting of `eraseSecrets` to the optional value of an `Output`. -/
def eraseSecretsOpt : Option PropertyValue → Option PropertyValue
  | none => none
  | some v => some (eraseSecrets v)
end

mutual
/-- The values wrapped by the `Secret` nodes of a tree, nested ones included. -/
def secretInners : PropertyValue → List PropertyValue
  | .array xs => secretInnersList xs
  | .object fs => secretInnersFields fs
  | .secret inner => inner :: secretInners inner
  | .output v _ _ => secretInnersOpt v
  | _ => []
/-- The wrapped values of all `Secret` nodes below an array. -/
def secretInnersList : List PropertyValue → List PropertyValue
  | [] => []
  | x :: xs => secretInners x ++ secretInnersList xs
/-- The wrapped values of all `Secret` nodes below the fields of an object or bag. -/
def secretInnersFields : List (String × PropertyValue) → List PropertyValue
  | [] => []
  | (_, v) :: fs => secretInners v ++ secretInnersFields fs
/-- The wrapped values of all `Secret` nodes below the value of an `Output`. -/
def secretInnersOpt : Option PropertyValue → List PropertyValue
  | none => []
  | some v => secretInners v
end

mutual
/-- The strings that occur in a plain value: string leaves and object keys. -/
def plainStrings : PlainValue → List String
  | .string s => [s]
  | .array xs => plainStringsList xs
  | .object fs => plainStringsFields fs
  | _ => []
/-- The strings that occur in the elements of a plain array. -/
def plainStringsList : List PlainValue → List String
  | [] => []
  | x :: xs => plainStrings x ++ plainStringsList xs
/-- The strings that occur in a plain mapping: its keys and the strings of its values. -/
def plainStringsFields : List (String × PlainValue) → List String
  | [] => []
  | (k, v) :: fs => k :: (plainStrings v ++ plainStringsFields fs)
end

/-- Redaction safety in its literal form: no non-empty substring of a string of the
plain form of a `Secret`-wrapped value of `bag` occurs in a string of `out`. -/
def NoSecretSubstring (bag : PropertyMap) (out : PlainMap) : Prop :=
  ∀ inner ∈ secretInnersFields bag, ∀ p, toPlain NewPanicCrypter inner = .ok p →
    ∀ t ∈ plainStrings p, ∀ sub : List Char, sub ≠ [] → sub <:+: t.data →
      ∀ s ∈ plainStringsFields out, ¬ sub <:+: s.data

/-- A serializer that reports, through its result, whether the crypter it was given
decrypts `v`: a nil map when it does, an empty map otherwise. -/
def probeSerializer (v : PropertyValue) :
    PropertyMap → Crypter → Bool → Outcome (Option PlainMap) :=
  fun _ c _ =>
    match c.DecryptValue v with
    | .ok _ => .ok none
    | _ => .ok (some [])

/-! ## Sample inputs -/

/-- The output bag of the specification example. -/
def exampleOutputs : PropertyMap :=
  [("url", .string "https://x"), ("password", .secret (.string "p@ss"))]

/-- The same bag with another password behind the `Secret` wrapper. -/
def rotatedOutputs : PropertyMap :=
  [("url", .string "https://x"), ("password", .secret (.string "hunter2"))]

/-- A bag whose secret value equals one of its public values. -/
def sharedOutputs : PropertyMap :=
  [("user", .string "admin"), ("password", .secret (.string "admin"))]

/-- A bag with a secret nested inside a secret and a secret-flagged `Output`. -/
def nestedOutputs : PropertyMap :=
  [("db", .secret (.object [("host", .string "h"), ("pw", .secret (.string "x"))])),
   ("token", .output (some (.string "t")) true true)]

/-- Sample collaborators of `Run`: the stack named on the command line always loads,
its snapshot holds `exampleOutputs` on the root resource, and the printers write a
fixed tag followed, for a string, by the string itself. -/
def sampleEnv : CmdEnv where
  lib := specLib
  requireStack := fun name => .ok ⟨name⟩
  Snapshot := fun _ => .ok (rootSnapshot exampleOutputs)
  printJSON := fun v =>
    match v with
    | .string s => ("json:" ++ s ++ "\n", .ok ())
    | _ => ("json\n", .ok ())
  stringifyOutput := fun v =>
    match v with
    | .string s => s
    | _ => "value"
  printStackOutputs := fun m => "outputs:" ++ toString m.length ++ "\n"

/-- The sample collaborators with a `printJSON` whose write to standard output fails. -/
def brokenPipeEnv : CmdEnv where
  lib := specLib
  requireStack := fun name => .ok ⟨name⟩
  Snapshot := fun _ => .ok (rootSnapshot exampleOutputs)
  printJSON := fun _ => ("", .error "write /dev/stdout: broken pipe")
  stringifyOutput := sampleEnv.stringifyOutput
  printStackOutputs := sampleEnv.printStackOutputs

/-! ## Lemmas on the redaction filter and the serializer -/

mutual
theorem secretFree_redact (b : Bool) : ∀ v, secretFree (redact b v) = true
  | .null => by simp [redact, secretFree]
  | .bool _ => by simp [redact, secretFree]
  | .number _ => by simp [redact, secretFree]
  | .string _ => by simp [redact, secretFree]
  | .array xs => by simp [redact, secretFree, secretFreeList_redact b xs]
  | .object fs => by simp [redact, secretFree, secretFreeFields_redact b fs]
  | .secret inner => by
    cases b
    · simp [redact, secretSentinel, secretFree]
    · simpa [redact] using secretFree_redact true inner
  | .output v known sec => by
    cases b <;> cases sec <;>
      simp [redact, secretSentinel, secretFree, secretFreeOpt_redact _ v]
  | .asset _ => by simp [redact, secretFree]
  | .archive _ => by simp [redact, secretFree]
  | .resourceReference _ => by simp [redact, secretFree]
theorem secretFreeList_redact (b : Bool) : ∀ xs, secretFreeList (redactList b xs) = true
  | [] => by simp [redactList, secretFreeList]
  | x :: xs => by
    simp [redactList, secretFreeList, secretFree_redact b x, secretFreeList_redact b xs]
theorem secretFreeFields_redact (b : Bool) :
    ∀ fs, secretFreeFields (redactFields b fs) = true
  | [] => by simp [redactFields, secretFreeFields]
  | (_, v) :: fs => by
    simp [redactFields, secretFreeFields, secretFree_redact b v, secretFreeFields_redact b fs]
theorem secretFreeOpt_redact (b : Bool) : ∀ o, secretFreeOpt (redactOpt b o) = true
  | none => by simp [redactOpt, secretFreeOpt]
  | some v => by simp [redactOpt, secretFreeOpt, secretFree_redact b v]
end

mutual
theorem toPlain_of_secretFree :
    ∀ v, secretFree v = true → ∃ p, ∀ c, toPlain c v = .ok p
  | .null, _ => ⟨.null, fun _ => by simp [toPlain]⟩
  | .bool b, _ => ⟨.bool b, fun _ => by simp [toPlain]⟩
  | .number n, _ => ⟨.number n, fun _ => by simp [toPlain]⟩
  | .string s, _ => ⟨.string s, fun _ => by simp [toPlain]⟩
  | .array xs, h => by
    obtain ⟨ys, hys⟩ := toPlainList_of_secretFree xs (by simpa [secretFree] using h)
    exact ⟨.array ys, fun c => by simp [toPlain, hys c, Outcome.andThen]⟩
  | .object fs, h => by
    obtain ⟨gs, hgs⟩ := toPlainFields_of_secretFree fs (by simpa [secretFree] using h)
    exact ⟨.object gs, fun c => by simp [toPlain, hgs c, Outcome.andThen]⟩
  | .secret _, h => by simp [secretFree] at h
  | .output v known sec, h => by
    cases known
    · exact ⟨unknownMarker, fun _ => by simp [toPlain]⟩
    · have hv : secretFreeOpt v = true := by
        simp [secretFree] at h
        exact h.2
      obtain ⟨p, hp⟩ := toPlainOpt_of_secretFree v hv
      exact ⟨p, fun c => by simp [toPlain, hp c]⟩
  | .asset a, _ => ⟨describeBlob "asset" a, fun _ => by simp [toPlain]⟩
  | .archive a, _ => ⟨describeBlob "archive" a, fun _ => by simp [toPlain]⟩
  | .resourceReference id, _ => ⟨.string id, fun _ => by simp [toPlain]⟩
theorem toPlainList_of_secretFree :
    ∀ xs, secretFreeList xs = true → ∃ ys, ∀ c, toPlainList c xs = .ok ys
  | [], _ => ⟨[], fun _ => by simp [toPlainList]⟩
  | x :: xs, h => by
    have h2 : secretFree x = true ∧ secretFreeList xs = true := by
      simpa [secretFreeList] using h
    obtain ⟨y, hy⟩ := toPlain_of_secretFree x h2.1
    obtain ⟨ys, hys⟩ := toPlainList_of_secretFree xs h2.2
    exact ⟨y :: ys, fun c => by simp [toPlainList, hy c, hys c, Outcome.andThen]⟩
theorem toPlainFields_of_secretFree :
    ∀ fs, secretFreeFields fs = true → ∃ gs, ∀ c, toPlainFields c fs = .ok gs
  | [], _ => ⟨[], fun _ => by simp [toPlainFields]⟩
  | (k, v) :: fs, h => by
    have h2 : secretFree v = true ∧ secretFreeFields fs = true := by
      simpa [secretFreeFields] using h
    obtain ⟨y, hy⟩ := toPlain_of_secretFree v h2.1
    obtain ⟨gs, hgs⟩ := toPlainFields_of_secretFree fs h2.2
    exact ⟨(k, y) :: gs, fun c => by simp [toPlainFields, hy c, hgs c, Outcome.andThen]⟩
theorem toPlainOpt_of_secretFree :
    ∀ o, secretFreeOpt o = true → ∃ p, ∀ c, toPlainOpt c o = .ok p
  | none, _ => ⟨.null, fun _ => by simp [toPlainOpt]⟩
  | some v, h => by
    obtain ⟨p, hp⟩ := toPlain_of_secretFree v (by simpa [secretFreeOpt] using h)
    exact ⟨p, fun c => by simp [toPlainOpt, hp c]⟩
end

mutual
theorem toPlain_redact_reveal (c : Crypter) :
    ∀ v, toPlain c (redact true v) = toPlain c (stripSecrets v)
  | .null => by simp [redact, stripSecrets]
  | .bool _ => by simp [redact, stripSecrets]
  | .number _ => by simp [redact, stripSecrets]
  | .string _ => by simp [redact, stripSecrets]
  | .array xs => by
    simp [redact, stripSecrets, toPlain, toPlainList_redact_reveal c xs]
  | .object fs => by
    simp [redact, stripSecrets, toPlain, toPlainFields_redact_reveal c fs]
  | .secret inner => by
    simpa [redact, stripSecrets] using toPlain_redact_reveal c inner
  | .output v known sec => by
    simp [redact, stripSecrets, toPlain, toPlainOpt_redact_reveal c v]
  | .asset _ => by simp [redact, stripSecrets]
  | .archive _ => by simp [redact, stripSecrets]
  | .resourceReference _ => by simp [redact, stripSecrets]
theorem toPlainList_redact_reveal (c : Crypter) :
    ∀ xs, toPlainList c (redactList true xs) = toPlainList c (stripSecretsList xs)
  | [] => by simp [redactList, stripSecretsList]
  | x :: xs => by
    simp [redactList, stripSecretsList, toPlainList, toPlain_redact_reveal c x,
      toPlainList_redact_reveal c xs]
theorem toPlainFields_redact_reveal (c : Crypter) :
    ∀ fs, toPlainFields c (redactFields true fs) = toPlainFields c (stripSecretsFields fs)
  | [] => by simp [redactFields, stripSecretsFields]
  | (_, v) :: fs => by
    simp [redactFields, stripSecretsFields, toPlainFields, toPlain_redact_reveal c v,
      toPlainFields_redact_reveal c fs]
theorem toPlainOpt_redact_reveal (c : Crypter) :
    ∀ o, toPlainOpt c (redactOpt true o) = toPlainOpt c (stripSecretsOpt o)
  | none => by simp [redactOpt, stripSecretsOpt]
  | some v => by simp [redactOpt, stripSecretsOpt, toPlainOpt, toPlain_redact_reveal c v]
end

mutual
theorem redact_hide_congr :
    ∀ a b, sameOutsideSecrets a b = true → redact false a = redact false b
  | .null, b, h => by cases b <;> simp_all [sameOutsideSecrets]
  | .bool _, b, h => by cases b <;> simp_all [sameOutsideSecrets]
  | .number _, b, h => by cases b <;> simp_all [sameOutsideSecrets]
  | .string _, b, h => by cases b <;> simp_all [sameOutsideSecrets]
  | .array xs, b, h => by
    cases b <;> simp [sameOutsideSecrets] at h
    simp [redact, redactList_hide_congr xs _ h]
  | .object fs, b, h => by
    cases b <;> simp [sameOutsideSecrets] at h
    simp [redact, redactFields_hide_congr fs _ h]
  | .secret _, b, h => by
    cases b <;> simp [sameOutsideSecrets] at h
    simp [redact]
  | .output v k s, b, h => by
    cases b <;> simp [sameOutsideSecrets] at h
    obtain ⟨⟨hk, hs⟩, hv⟩ := h
    subst hk hs
    simp [redact, redactOpt_hide_congr v _ hv]
  | .asset _, b, h => by cases b <;> simp_all [sameOutsideSecrets]
  | .archive _, b, h => by cases b <;> simp_all [sameOutsideSecrets]
  | .resourceReference _, b, h => by cases b <;> simp_all [sameOutsideSecrets]
theorem redactList_hide_congr :
    ∀ xs ys, sameOutsideSecretsList xs ys = true → redactList false xs = redactList false ys
  | [], [], _ => rfl
  | [], _ :: _, h => by simp [sameOutsideSecretsList] at h
  | _ :: _, [], h => by simp [sameOutsideSecretsList] at h
  | x :: xs, y :: ys, h => by
    simp [sameOutsideSecretsList] at h
    simp [redactList, redact_hide_congr x y h.1, redactList_hide_congr xs ys h.2]
theorem redactFields_hide_congr :
    ∀ fs gs, sameOutsideSecretsFields fs gs = true →
      redactFields false fs = redactFields false gs
  | [], [], _ => rfl
  | [], _ :: _, h => by simp [sameOutsideSecretsFields] at h
  | _ :: _, [], h => by simp [sameOutsideSecretsFields] at h
  | (k, v) :: fs, (l, w) :: gs, h => by
    simp [sameOutsideSecretsFields] at h
    obtain ⟨⟨hk, hv⟩, hfs⟩ := h
    subst hk
    simp [redactFields, redact_hide_congr v w hv, redactFields_hide_congr fs gs hfs]
theorem redactOpt_hide_congr :
    ∀ o q, sameOutsideSecretsOpt o q = true → redactOpt false o = redactOpt false q
  | none, none, _ => rfl
  | none, some _, h => by simp [sameOutsideSecretsOpt] at h
  | some _, none, h => by simp [sameOutsideSecretsOpt] at h
  | some v, some w, h => by
    simp [sameOutsideSecretsOpt] at h
    simp [redactOpt, redact_hide_congr v w h]
end

mutual
theorem redact_hide_eraseSecrets :
    ∀ v, redact false (eraseSecrets v) = redact false v
  | .null => by simp [eraseSecrets]
  | .bool _ => by simp [eraseSecrets]
  | .number _ => by simp [eraseSecrets]
  | .string _ => by simp [eraseSecrets]
  | .array xs => by simp [eraseSecrets, redact, redactList_hide_eraseSecrets xs]
  | .object fs => by simp [eraseSecrets, redact, redactFields_hide_eraseSecrets fs]
  | .secret _ => by simp [eraseSecrets, redact]
  | .output v known sec => by
    cases sec <;> simp [eraseSecrets, redact, redactOpt_hide_eraseSecrets v]
  | .asset _ => by simp [eraseSecrets]
  | .archive _ => by simp [eraseSecrets]
  | .resourceReference _ => by simp [eraseSecrets]
theorem redactList_hide_eraseSecrets :
    ∀ xs, redactList false (eraseSecretsList xs) = redactList false xs
  | [] => rfl
  | x :: xs => by
    simp [eraseSecretsList, redactList, redact_hide_eraseSecrets x,
      redactList_hide_eraseSecrets xs]
theorem redactFields_hide_eraseSecrets :
    ∀ fs, redactFields false (eraseSecretsFields fs) = redactFields false fs
  | [] => rfl
  | (_, v) :: fs => by
    simp [eraseSecretsFields, redactFields, redact_hide_eraseSecrets v,
      redactFields_hide_eraseSecrets fs]
theorem redactOpt_hide_eraseSecrets :
    ∀ o, redactOpt false (eraseSecretsOpt o) = redactOpt false o
  | none => rfl
  | some v => by simp [eraseSecretsOpt, redactOpt, redact_hide_eraseSecrets v]
end

/-- A top-level `Secret` output is serialized as the sentinel string when hiding. -/
theorem lookup_hidden_secret (c : Crypter) (k : String) (inner : PropertyValue) :
    ∀ (bag : PropertyMap) (out : PlainMap),
      toPlainFields c (redactFields false bag) = .ok out →
      bag.lookup k = some (.secret inner) →
      out.lookup k = some (.string "[secret]")
  | [], _, _, h => by simp at h
  | (l, v) :: fs, out, hout, h => by
    simp only [redactFields, toPlainFields] at hout
    cases hv : toPlain c (redact false v) with
    | error e => simp [hv, Outcome.andThen] at hout
    | panic e => simp [hv, Outcome.andThen] at hout
    | ok y =>
      cases hfs : toPlainFields c (redactFields false fs) with
      | error e => simp [hv, hfs, Outcome.andThen] at hout
      | panic e => simp [hv, hfs, Outcome.andThen] at hout
      | ok gs =>
        simp [hv, hfs, Outcome.andThen] at hout
        subst hout
        by_cases hk : k = l
        · subst hk
          simp [List.lookup] at h
          subst h
          simp [redact, secretSentinel, toPlain] at hv
          subst hv
          simp [List.lookup]
        · have hkl : (k == l) = false := by simpa using hk
          simp [List.lookup, hkl] at h ⊢
          exact lookup_hidden_secret c k inner fs gs hfs h

/-- With the collaborators of the specification and a root resource present,
`getStackOutputs` is the serialization of the redacted outputs. -/
theorem getStackOutputs_of_root (lib : StackLib) (snap : Snapshot) (state : State)
    (showSecrets : Bool) (h : lib.GetRootStackResource snap = .ok (some state)) :
    getStackOutputs lib snap showSecrets
      = lib.SerializeProperties (lib.MassageSecrets state.Outputs showSecrets)
          NewPanicCrypter showSecrets := by
  simp [getStackOutputs, h]

/-- The root resource of `rootSnapshot outputs` is found and carries `outputs`. -/
theorem root_of_rootSnapshot (outputs : PropertyMap) :
    GetRootStackResource (rootSnapshot outputs) = .ok (some ⟨RootStackType, outputs⟩) := by
  simp [GetRootStackResource, rootSnapshot]

/-! ## Properties of `getStackOutputs` on the source -/

/-- C3 (missing root resource): when the root lookup succeeds and finds no root
resource, `getStackOutputs` returns the empty mapping and no error for either value of
`showSecrets`, whatever `MassageSecrets` and `SerializeProperties` are: neither is
consulted. -/
theorem missing_root_yields_empty (lib : StackLib) (snap : Snapshot) (showSecrets : Bool)
    (h : lib.GetRootStackResource snap = .ok none) :
    ∀ massage serialize,
      getStackOutputs ⟨lib.GetRootStackResource, massage, serialize⟩ snap showSecrets
        = .ok (some []) := by
  intro massage serialize
  simp [getStackOutputs, h]

theorem missing_root_yields_empty_witness :
    specLib.GetRootStackResource ⟨[]⟩ = .ok none ∧
    ∀ massage serialize,
      getStackOutputs ⟨specLib.GetRootStackResource, massage, serialize⟩ ⟨[]⟩ true
        = .ok (some []) :=
  ⟨by rfl, missing_root_yields_empty specLib ⟨[]⟩ true (by rfl)⟩

/-- C4 (extraction pipeline): when the root resource is found, `getStackOutputs`
returns exactly `SerializeProperties` applied to `MassageSecrets` of the recorded
outputs of the root resource, the same `showSecrets` flag being given to both. -/
theorem extraction_pipeline (lib : StackLib) (snap : Snapshot) (state : State)
    (showSecrets : Bool) (h : lib.GetRootStackResource snap = .ok (some state)) :
    getStackOutputs lib snap showSecrets
      = lib.SerializeProperties (lib.MassageSecrets state.Outputs showSecrets)
          NewPanicCrypter showSecrets :=
  getStackOutputs_of_root lib snap state showSecrets h

theorem extraction_pipeline_witness :
    specLib.GetRootStackResource (rootSnapshot exampleOutputs)
      = .ok (some ⟨RootStackType, exampleOutputs⟩) ∧
    getStackOutputs specLib (rootSnapshot exampleOutputs) false
      = specLib.SerializeProperties (specLib.MassageSecrets exampleOutputs false)
          NewPanicCrypter false :=
  ⟨by rfl,
   extraction_pipeline specLib (rootSnapshot exampleOutputs) ⟨RootStackType, exampleOutputs⟩
     false (by rfl)⟩

/-- C6 as stated fails: on the example snapshot with `showSecrets = true` there is no
crypter capable of decrypting that is the one handed to the serializer. -/
theorem real_crypter_on_reveal_fails :
    ¬ ∃ c : Crypter, c.canDecrypt ∧
        ∀ serialize,
          getStackOutputs ⟨GetRootStackResource, MassageSecrets, serialize⟩
              (rootSnapshot exampleOutputs) true
            = serialize (MassageSecrets exampleOutputs true) c true := by
  rintro ⟨c, ⟨v, p, hv⟩, h⟩
  have hp := h (probeSerializer v)
  simp [getStackOutputs, root_of_rootSnapshot, probeSerializer, NewPanicCrypter, hv] at hp

/-- C6 amended: when the root resource is found, for either value of `showSecrets`
the crypter handed to the serializer is the panicking crypter, which decrypts
nothing. -/
theorem panic_crypter_always_supplied (lib : StackLib) (snap : Snapshot) (state : State)
    (showSecrets : Bool) (h : lib.GetRootStackResource snap = .ok (some state)) :
    (∀ serialize,
      getStackOutputs ⟨lib.GetRootStackResource, lib.MassageSecrets, serialize⟩ snap
          showSecrets
        = serialize (lib.MassageSecrets state.Outputs showSecrets) NewPanicCrypter
            showSecrets) ∧
    ¬ NewPanicCrypter.canDecrypt := by
  refine ⟨fun serialize => by simp [getStackOutputs, h], ?_⟩
  rintro ⟨v, p, hv⟩
  simp [NewPanicCrypter] at hv

theorem panic_crypter_always_supplied_witness :
    specLib.GetRootStackResource (rootSnapshot exampleOutputs)
      = .ok (some ⟨RootStackType, exampleOutputs⟩) ∧
    ((∀ serialize,
      getStackOutputs ⟨specLib.GetRootStackResource, specLib.MassageSecrets, serialize⟩
          (rootSnapshot exampleOutputs) true
        = serialize (specLib.MassageSecrets exampleOutputs true) NewPanicCrypter true) ∧
     ¬ NewPanicCrypter.canDecrypt) :=
  ⟨by rfl,
   panic_crypter_always_supplied specLib (rootSnapshot exampleOutputs)
     ⟨RootStackType, exampleOutputs⟩ true (by rfl)⟩

/-! ## Properties of the extraction with the collaborators of the specification -/

/-- For the collaborators of the specification, hiding succeeds with a result that no
crypter influences. -/
theorem serialize_hidden (b : Bool) (bag : PropertyMap) :
    ∃ out, ∀ c flag, SerializeProperties (MassageSecrets bag b) c flag = .ok (some out) := by
  obtain ⟨out, hout⟩ := toPlainFields_of_secretFree (redactFields b bag)
    (secretFreeFields_redact b bag)
  exact ⟨out, fun c flag => by simp [SerializeProperties, MassageSecrets, hout c, Outcome.andThen]⟩

/-- C1 as stated fails: in a bag whose secret value equals a public value, the whole
plain form of the `Secret`-wrapped value occurs in the output of `getStackOutputs`
with `showSecrets = false`. -/
theorem redaction_safety_literal_fails :
    getStackOutputs specLib (rootSnapshot sharedOutputs) false
      = .ok (some [("user", .string "admin"), ("password", .string "[secret]")]) ∧
    secretInnersFields sharedOutputs = [.string "admin"] ∧
    ¬ NoSecretSubstring sharedOutputs
        [("user", .string "admin"), ("password", .string "[secret]")] := by
  refine ⟨by rfl, by rfl, ?_⟩
  intro h
  have hbad := h (.string "admin") (by simp [sharedOutputs, secretInnersFields, secretInners])
    (.string "admin") (by simp [toPlain]) "admin" (by simp [plainStrings])
    "admin".data (by decide) List.infix_rfl
    "admin" (by simp [plainStringsFields, plainStrings])
  exact hbad List.infix_rfl

/-- C1 amended: with `showSecrets = false` the call succeeds, its result is the one
obtained from the bag in which the content of every secret has been discarded, and
every output that is a `Secret` node is returned as the string `[secret]`. -/
theorem hidden_secrets_are_discarded (snap : Snapshot) (state : State)
    (h : GetRootStackResource snap = .ok (some state)) :
    ∃ out, getStackOutputs specLib snap false = .ok (some out) ∧
      getStackOutputs specLib (rootSnapshot (eraseSecretsFields state.Outputs)) false
        = .ok (some out) ∧
      ∀ k inner, state.Outputs.lookup k = some (.secret inner) →
        out.lookup k = some (.string "[secret]") := by
  obtain ⟨out, hout⟩ := serialize_hidden false state.Outputs
  have hfields : toPlainFields NewPanicCrypter (redactFields false state.Outputs) = .ok out := by
    have h1 := hout NewPanicCrypter false
    simp only [SerializeProperties, MassageSecrets] at h1
    cases hq : toPlainFields NewPanicCrypter (redactFields false state.Outputs) with
    | ok m => simpa [hq, Outcome.andThen] using h1
    | error e => simp [hq, Outcome.andThen] at h1
    | panic e => simp [hq, Outcome.andThen] at h1
  refine ⟨out, ?_, ?_, ?_⟩
  · rw [getStackOutputs_of_root specLib snap state false h]
    exact hout NewPanicCrypter false
  · rw [getStackOutputs_of_root specLib _ _ false (root_of_rootSnapshot _)]
    have h2 := hout NewPanicCrypter false
    simpa [specLib, MassageSecrets, redactFields_hide_eraseSecrets] using h2
  · intro k inner hk
    exact lookup_hidden_secret NewPanicCrypter k inner state.Outputs out hfields hk

theorem hidden_secrets_are_discarded_witness :
    GetRootStackResource (rootSnapshot exampleOutputs)
      = .ok (some ⟨RootStackType, exampleOutputs⟩) ∧
    ∃ out, getStackOutputs specLib (rootSnapshot exampleOutputs) false = .ok (some out) ∧
      getStackOutputs specLib (rootSnapshot (eraseSecretsFields exampleOutputs)) false
        = .ok (some out) ∧
      ∀ k inner, exampleOutputs.lookup k = some (.secret inner) →
        out.lookup k = some (.string "[secret]") :=
  ⟨by rfl,
   hidden_secrets_are_discarded (rootSnapshot exampleOutputs) ⟨RootStackType, exampleOutputs⟩
     (by rfl)⟩

/-- C5 (panic crypter never exercised): with `showSecrets = false` the redacted bag
handed to serialization has no `Secret` node and no secret-flagged `Output`; its
serialization returns the same mapping for every crypter, so no crypter is consulted,
and `getStackOutputs`, which passes the panicking crypter, returns that mapping. -/
theorem panic_crypter_never_exercised (bag : PropertyMap) :
    secretFreeFields (MassageSecrets bag false) = true ∧
    ∃ out, (∀ c, SerializeProperties (MassageSecrets bag false) c false = .ok (some out)) ∧
      getStackOutputs specLib (rootSnapshot bag) false = .ok (some out) := by
  refine ⟨secretFreeFields_redact false bag, ?_⟩
  obtain ⟨out, hout⟩ := serialize_hidden false bag
  refine ⟨out, fun c => hout c false, ?_⟩
  rw [getStackOutputs_of_root specLib _ _ false (root_of_rootSnapshot bag)]
  exact hout NewPanicCrypter false

/-- C9 (reveal correctness): with `showSecrets = true`, `getStackOutputs` succeeds and
returns the serialization, under any crypter, of the bag with every `Secret` wrapper
stripped and the inner values left intact, nested secrets included. -/
theorem reveal_correctness (snap : Snapshot) (state : State)
    (h : GetRootStackResource snap = .ok (some state)) :
    (∀ c, getStackOutputs specLib snap true
      = SerializeProperties (stripSecretsFields state.Outputs) c true) ∧
    (getStackOutputs specLib snap true).isOk = true := by
  obtain ⟨out, hout⟩ := serialize_hidden true state.Outputs
  have hget : getStackOutputs specLib snap true = .ok (some out) := by
    rw [getStackOutputs_of_root specLib snap state true h]
    exact hout NewPanicCrypter true
  refine ⟨fun c => ?_, by simp [hget, Outcome.isOk]⟩
  rw [hget, ← hout c true]
  simp [SerializeProperties, MassageSecrets, toPlainFields_redact_reveal]

theorem reveal_correctness_witness :
    GetRootStackResource (rootSnapshot nestedOutputs)
      = .ok (some ⟨RootStackType, nestedOutputs⟩) ∧
    ((∀ c, getStackOutputs specLib (rootSnapshot nestedOutputs) true
      = SerializeProperties (stripSecretsFields nestedOutputs) c true) ∧
     (getStackOutputs specLib (rootSnapshot nestedOutputs) true).isOk = true) :=
  ⟨by rfl,
   reveal_correctness (rootSnapshot nestedOutputs) ⟨RootStackType, nestedOutputs⟩ (by rfl)⟩

/-- C10 (noninterference of hidden secrets): for two bags that are identical except
for the values wrapped inside `Secret` nodes, `getStackOutputs` with
`showSecrets = false` succeeds on both and returns one and the same plain mapping. -/
theorem hidden_secrets_noninterference (snapA snapB : Snapshot) (stateA stateB : State)
    (hA : GetRootStackResource snapA = .ok (some stateA))
    (hB : GetRootStackResource snapB = .ok (some stateB))
    (hsame : sameOutsideSecretsFields stateA.Outputs stateB.Outputs = true) :
    getStackOutputs specLib snapA false = getStackOutputs specLib snapB false ∧
    ∃ out, getStackOutputs specLib snapA false = .ok (some out) ∧
      getStackOutputs specLib snapB false = .ok (some out) := by
  obtain ⟨out, hout⟩ := serialize_hidden false stateA.Outputs
  have hredact : MassageSecrets stateB.Outputs false = MassageSecrets stateA.Outputs false := by
    simp [MassageSecrets, redactFields_hide_congr _ _ hsame]
  have hgetA : getStackOutputs specLib snapA false = .ok (some out) := by
    rw [getStackOutputs_of_root specLib snapA stateA false hA]
    exact hout NewPanicCrypter false
  have hgetB : getStackOutputs specLib snapB false = .ok (some out) := by
    rw [getStackOutputs_of_root specLib snapB stateB false hB]
    show SerializeProperties (MassageSecrets stateB.Outputs false) NewPanicCrypter false = _
    rw [hredact]
    exact hout NewPanicCrypter false
  exact ⟨by rw [hgetA, hgetB], out, hgetA, hgetB⟩

theorem hidden_secrets_noninterference_witness :
    sameOutsideSecretsFields exampleOutputs rotatedOutputs = true ∧
    (getStackOutputs specLib (rootSnapshot exampleOutputs) false
      = getStackOutputs specLib (rootSnapshot rotatedOutputs) false ∧
     ∃ out, getStackOutputs specLib (rootSnapshot exampleOutputs) false = .ok (some out) ∧
       getStackOutputs specLib (rootSnapshot rotatedOutputs) false = .ok (some out)) :=
  ⟨by simp [sameOutsideSecretsFields, sameOutsideSecrets, exampleOutputs, rotatedOutputs],
   hidden_secrets_noninterference (rootSnapshot exampleOutputs) (rootSnapshot rotatedOutputs)
     ⟨RootStackType, exampleOutputs⟩ ⟨RootStackType, rotatedOutputs⟩
     (by rfl) (by rfl)
     (by simp [sameOutsideSecretsFields, sameOutsideSecrets, exampleOutputs, rotatedOutputs])⟩

/-! ## Properties of `Run` on the source -/

/-- Behaviour of `Run` once the stack, its snapshot and the output mapping have been
obtained: the presenter decides the text and the result, and the audit event is logged
only after the presenter returned normally. -/
theorem run_of_outputs (env : CmdEnv) (cmd : stackOutputCmd) (args : List String)
    (s : Stack) (snap : Snapshot) (outputs : Option PlainMap)
    (hs : env.requireStack cmd.stackName = .ok s) (hsnap : env.Snapshot s = .ok snap)
    (hout : getStackOutputs env.lib snap cmd.showSecrets = .ok outputs) :
    stackOutputCmd.Run env cmd args
      = match present env cmd (outputs.getD []) args with
        | (w, .ok _) =>
          ⟨w, if cmd.showSecrets then [⟨s, "", "pulumi stack output"⟩] else [], .ok ()⟩
        | (w, r) => ⟨w, [], r⟩ := by
  simp [stackOutputCmd.Run, hs, hsnap, hout]

/-- C2 (unknown key): when the output mapping has been obtained and the requested
property name is not one of its keys, `Run` returns the error whose message names the
key, writes nothing to standard output and logs no audit event. -/
theorem unknown_key_error (env : CmdEnv) (cmd : stackOutputCmd) (name : String)
    (rest : List String) (s : Stack) (snap : Snapshot) (outputs : Option PlainMap)
    (hs : env.requireStack cmd.stackName = .ok s) (hsnap : env.Snapshot s = .ok snap)
    (hout : getStackOutputs env.lib snap cmd.showSecrets = .ok outputs)
    (hkey : (outputs.getD []).lookup name = none) :
    stackOutputCmd.Run env cmd (name :: rest)
      = ⟨"", [],
         .error ("current stack does not have output property \x27" ++ name ++ "\x27")⟩ := by
  rw [run_of_outputs env cmd (name :: rest) s snap outputs hs hsnap hout]
  simp [present, hkey]

theorem unknown_key_error_witness :
    sampleEnv.requireStack "dev" = .ok ⟨"dev"⟩ ∧
    sampleEnv.Snapshot ⟨"dev"⟩ = .ok (rootSnapshot exampleOutputs) ∧
    getStackOutputs sampleEnv.lib (rootSnapshot exampleOutputs) false
      = .ok (some [("url", .string "https://x"), ("password", .string "[secret]")]) ∧
    stackOutputCmd.Run sampleEnv ⟨"dev", false, true⟩ ["missing"]
      = ⟨"", [], .error "current stack does not have output property \x27missing\x27"⟩ :=
  ⟨by rfl, by rfl, by rfl,
   unknown_key_error sampleEnv ⟨"dev", false, true⟩ "missing" [] ⟨"dev"⟩
     (rootSnapshot exampleOutputs)
     (some [("url", .string "https://x"), ("password", .string "[secret]")])
     (by rfl) (by rfl) (by rfl) (by rfl)⟩

/-- C7 as stated fails: with `showSecrets = true` and a property name that is not an
output of the stack, `Run` returns the unknown-property error and logs no audit
event. -/
theorem audit_once_per_invocation_fails :
    (stackOutputCmd.Run sampleEnv ⟨"dev", true, false⟩ ["missing"]).result
      = .error "current stack does not have output property \x27missing\x27" ∧
    (stackOutputCmd.Run sampleEnv ⟨"dev", true, false⟩ ["missing"]).audit = [] ∧
    ¬ (stackOutputCmd.Run sampleEnv ⟨"dev", true, false⟩ ["missing"]).audit.length = 1 :=
  ⟨by rfl, by rfl, by decide⟩

/-- C7 amended: for every invocation of `Run`, whatever the selector and the JSON
flag, the audit event is logged once when `showSecrets` is set and `Run` returns
without error, and not at all otherwise; a logged event carries the loaded stack, an
empty secret name and the command name `pulumi stack output`. -/
theorem audit_once_on_success (env : CmdEnv) (cmd : stackOutputCmd) (args : List String) :
    (stackOutputCmd.Run env cmd args).audit.length
      = (if cmd.showSecrets && (stackOutputCmd.Run env cmd args).result.isOk then 1 else 0) ∧
    ∀ e ∈ (stackOutputCmd.Run env cmd args).audit,
      env.requireStack cmd.stackName = .ok e.stack ∧ e.secretName = "" ∧
        e.commandName = "pulumi stack output" := by
  cases hs : env.requireStack cmd.stackName with
  | error e => simp [stackOutputCmd.Run, hs, Outcome.isOk]
  | panic e => simp [stackOutputCmd.Run, hs, Outcome.isOk]
  | ok s =>
    cases hsnap : env.Snapshot s with
    | error e => simp [stackOutputCmd.Run, hs, hsnap, Outcome.isOk]
    | panic e => simp [stackOutputCmd.Run, hs, hsnap, Outcome.isOk]
    | ok snap =>
      cases hout : getStackOutputs env.lib snap cmd.showSecrets with
      | error e => simp [stackOutputCmd.Run, hs, hsnap, hout, Outcome.isOk]
      | panic e => simp [stackOutputCmd.Run, hs, hsnap, hout, Outcome.isOk]
      | ok outputs =>
        rw [run_of_outputs env cmd args s snap outputs hs hsnap hout]
        rcases hp : present env cmd (outputs.getD []) args with ⟨w, r⟩
        cases r with
        | error e => simp [Outcome.isOk]
        | panic e => simp [Outcome.isOk]
        | ok u => cases hshow : cmd.showSecrets <;> simp [Outcome.isOk]

/-- C8 as stated fails: with the JSON flag set and a property name that is a key of
the output mapping, `Run` returns the error reported by `printJSON`. -/
theorem present_key_returns_no_error_fails :
    getStackOutputs brokenPipeEnv.lib (rootSnapshot exampleOutputs) false
      = .ok (some [("url", .string "https://x"), ("password", .string "[secret]")]) ∧
    (stackOutputCmd.Run brokenPipeEnv ⟨"dev", false, true⟩ ["url"]).result
      = .error "write /dev/stdout: broken pipe" :=
  ⟨by rfl, by rfl⟩

/-- C8 amended: once the output mapping has been obtained, with no property name `Run`
writes the whole mapping (through `printJSON` as one object if `jsonOut`, else through
the key/value listing); with a property name that is a key it writes exactly that
value (through `printJSON` if `jsonOut`, else its stringified form and a newline) and
returns no error, except that an error reported by `printJSON` is returned. -/
theorem presenter_selection (env : CmdEnv) (cmd : stackOutputCmd) (s : Stack)
    (snap : Snapshot) (outputs : Option PlainMap)
    (hs : env.requireStack cmd.stackName = .ok s) (hsnap : env.Snapshot s = .ok snap)
    (hout : getStackOutputs env.lib snap cmd.showSecrets = .ok outputs) :
    ((stackOutputCmd.Run env cmd []).stdout
      = if cmd.jsonOut then (env.printJSON (.object (outputs.getD []))).1
        else env.printStackOutputs (outputs.getD [])) ∧
    ∀ name rest v, (outputs.getD []).lookup name = some v →
      ((stackOutputCmd.Run env cmd (name :: rest)).stdout
        = if cmd.jsonOut then (env.printJSON v).1 else env.stringifyOutput v ++ "\n") ∧
      ((stackOutputCmd.Run env cmd (name :: rest)).result
        = if cmd.jsonOut then (env.printJSON v).2 else .ok ()) := by
  refine ⟨?_, ?_⟩
  · rw [run_of_outputs env cmd [] s snap outputs hs hsnap hout]
    cases hj : cmd.jsonOut
    · simp [present, hj]
    · rcases hp : env.printJSON (.object (outputs.getD [])) with ⟨w, r⟩
      cases r <;> simp [present, hj, hp]
  · intro name rest v hv
    rw [run_of_outputs env cmd (name :: rest) s snap outputs hs hsnap hout]
    cases hj : cmd.jsonOut
    · simp [present, hj, hv]
    · rcases hp : env.printJSON v with ⟨w, r⟩
      cases r <;> simp [present, hj, hv, hp]

theorem presenter_selection_witness :
    sampleEnv.requireStack "dev" = .ok ⟨"dev"⟩ ∧
    sampleEnv.Snapshot ⟨"dev"⟩ = .ok (rootSnapshot exampleOutputs) ∧
    getStackOutputs sampleEnv.lib (rootSnapshot exampleOutputs) false
      = .ok (some [("url", .string "https://x"), ("password", .string "[secret]")]) ∧
    (stackOutputCmd.Run sampleEnv ⟨"dev", false, false⟩ ["url"]).stdout = "https://x\n" ∧
    (stackOutputCmd.Run sampleEnv ⟨"dev", false, false⟩ ["url"]).result = .ok () :=
  ⟨by rfl, by rfl, by rfl,
   ((presenter_selection sampleEnv ⟨"dev", false, false⟩ ⟨"dev"⟩
      (rootSnapshot exampleOutputs)
      (some [("url", .string "https://x"), ("password", .string "[secret]")])
      (by rfl) (by rfl) (by rfl)).2 "url" [] (.string "https://x") (by rfl)).1,
   ((presenter_selection sampleEnv ⟨"dev", false, false⟩ ⟨"dev"⟩
      (rootSnapshot exampleOutputs)
      (some [("url", .string "https://x"), ("password", .string "[secret]")])
      (by rfl) (by rfl) (by rfl)).2 "url" [] (.string "https://x") (by rfl)).2⟩

end StackOutput
